import Mathlib

/-!
Shallow embedding of the core of `js-libp2p-swarm`:

* `src/src/connection/index.js` — the outbound `ConnectionFSM`
* `src/src/connection/handler.js` — the inbound `IncomingConnectionFSM`
  and the `DialQueueManager`
* `src/src/index.js` — the `Switch` (lifecycle state machine, `hangUp`,
  `availableTransports`, `hasTransports`)

State machines are built on the `fsm-event` library: a transition table maps
(current state, event) to an optional next state; triggering an event that is
not in the table emits an `error` event (which the code routes to a logger,
`_onStateError`) and leaves the state unchanged.  We embed the table as a
function into `Option` and the runtime step as `Option.getD` of the table.
Entry actions that run synchronously between asynchronous suspension points
are modelled as single atomic steps of a transition relation.
-/

namespace Swarm

/-- The states of the outbound `ConnectionFSM` (src/src/connection/index.js,
lines 59–109).  The inbound `IncomingConnectionFSM` uses a subset of these
states (src/src/connection/handler.js, lines 23–53). -/
inductive ConnState
  | DISCONNECTED
  | DIALING
  | DIALED
  | PRIVATIZING
  | PRIVATIZED
  | ENCRYPTING
  | ENCRYPTED
  | UPGRADING
  | MUXED
  | CONNECTED
  | DISCONNECTING
  | ABORTED
  | ERRORED
deriving DecidableEq, Repr

/-- The events that can be fed to a connection state machine. -/
inductive ConnEvent
  | dial
  | done
  | error
  | abort
  | disconnect
  | encrypt
  | privatize
  | upgrade
  | stop
deriving DecidableEq, Repr

open ConnState ConnEvent

/-- Transition table of the outbound `ConnectionFSM`, transcribed from the
`FSM('DISCONNECTED', {...})` literal at src/src/connection/index.js lines
59–109.  `none` means the event is not listed for that state. -/
def outTable : ConnState → ConnEvent → Option ConnState
  | DISCONNECTED, .dial => some DIALING
  | DIALING, .abort => some ABORTED
  | DIALING, .done => some DIALED
  | DIALING, .error => some ERRORED
  | DIALING, .disconnect => some DISCONNECTING
  | DIALED, .encrypt => some ENCRYPTING
  | DIALED, .privatize => some PRIVATIZING
  | PRIVATIZING, .done => some PRIVATIZED
  | PRIVATIZING, .abort => some ABORTED
  | PRIVATIZING, .disconnect => some DISCONNECTING
  | PRIVATIZED, .encrypt => some ENCRYPTING
  | ENCRYPTING, .done => some ENCRYPTED
  | ENCRYPTING, .error => some ERRORED
  | ENCRYPTING, .disconnect => some DISCONNECTING
  | ENCRYPTED, .upgrade => some UPGRADING
  | ENCRYPTED, .disconnect => some DISCONNECTING
  | UPGRADING, .stop => some CONNECTED
  | UPGRADING, .done => some MUXED
  | UPGRADING, .error => some ERRORED
  | MUXED, .disconnect => some DISCONNECTING
  | CONNECTED, .disconnect => some DISCONNECTING
  | DISCONNECTING, .done => some DISCONNECTED
  | ERRORED, .disconnect => some DISCONNECTING
  | _, _ => none

/-- Transition table of the inbound `IncomingConnectionFSM`, transcribed from
the `FSM('DIALED', {...})` literal at src/src/connection/handler.js lines
23–53. -/
def inTable : ConnState → ConnEvent → Option ConnState
  | DIALED, .privatize => some PRIVATIZING
  | DIALED, .encrypt => some ENCRYPTING
  | PRIVATIZING, .done => some PRIVATIZED
  | PRIVATIZING, .disconnect => some DISCONNECTING
  | PRIVATIZED, .encrypt => some ENCRYPTING
  | ENCRYPTING, .done => some ENCRYPTED
  | ENCRYPTING, .disconnect => some DISCONNECTING
  | ENCRYPTED, .upgrade => some UPGRADING
  | ENCRYPTED, .disconnect => some DISCONNECTING
  | UPGRADING, .done => some MUXED
  | MUXED, .disconnect => some DISCONNECTING
  | DISCONNECTING, .done => some DISCONNECTED
  | _, _ => none

/-- Runtime semantics of triggering an event on an `fsm-event` machine: if the
table lists the event for the current state the machine moves there, otherwise
it emits a state-transition error (logged by `_onStateError`) and stays. -/
def fsmStep (table : ConnState → ConnEvent → Option ConnState)
    (s : ConnState) (e : ConnEvent) : ConnState :=
  (table s e).getD s

/-- The sequence of states visited when feeding a list of events to a machine
with the given table, starting from `s`. -/
def fsmTrace (table : ConnState → ConnEvent → Option ConnState)
    (s : ConnState) : List ConnEvent → List ConnState
  | [] => [s]
  | e :: es => s :: fsmTrace table (fsmStep table s e) es

/-- `s` and `s'` are joined by an edge of the transition graph of `table`. -/
def tableEdge (table : ConnState → ConnEvent → Option ConnState)
    (s s' : ConnState) : Prop :=
  ∃ e, table s e = some s'

/-- States of the `Switch` lifecycle machine (src/src/index.js lines 78–92). -/
inductive SwitchState
  | STOPPED
  | STARTING
  | STARTED
  | STOPPING
deriving DecidableEq, Repr

/-- Events of the `Switch` lifecycle machine. -/
inductive SwitchEvent
  | start
  | stop
  | done
deriving DecidableEq, Repr

/-- Transition table of the `Switch` lifecycle machine, transcribed from
`FSM('STOPPED', {...})` at src/src/index.js lines 78–92. -/
def switchTable : SwitchState → SwitchEvent → Option SwitchState
  | .STOPPED, .start => some .STARTING
  | .STOPPED, .stop => some .STOPPING
  | .STARTING, .done => some .STARTED
  | .STARTING, .stop => some .STOPPING
  | .STARTED, .stop => some .STOPPING
  | .STARTED, .start => some .STARTED
  | .STOPPING, .done => some .STOPPED
  | _, _ => none

/-- Runtime step of the `Switch` lifecycle machine (same `fsm-event`
semantics: undefined events error and leave the state unchanged). -/
def switchStep (s : SwitchState) (e : SwitchEvent) : SwitchState :=
  (switchTable s e).getD s

/-- `ConnectionFSM.dial` (src/src/connection/index.js lines 151–157): if the
remote peer's base58 id equals our own, emit `Errors.DIAL_SELF()` and return
without touching the state machine; otherwise trigger the `dial` event.
Returns the resulting state together with whether DIAL_SELF was emitted. -/
def dialCall (ourB58 theirB58 : String) (s : ConnState) : ConnState × Bool :=
  if theirB58 = ourB58 then (s, true)
  else (fsmStep outTable s .dial, false)

/-- Outcome of the DIALING entry action `_onDialing`
(src/src/connection/index.js lines 203–252). -/
inductive DialOutcome
  /-- A transport dial succeeded; the FSM stores the observed connection and
  triggers `done`. -/
  | success (transport : String)
  /-- `Circuit not enabled and all transports failed`: the FSM emits the error
  and triggers `disconnect`. -/
  | circuitDisabledErr
  /-- `No available transports to dial peer`: the FSM emits the error and
  triggers `disconnect`. -/
  | noAvailableErr
  /-- `NO_TRANSPORTS_REGISTERED`: emitted before any dial when the switch has
  no non-circuit transports; the FSM triggers `disconnect`. -/
  | noTransportsErr
deriving DecidableEq, Repr

/-- Result of `_onDialing`: the outcome, the transport keys passed to
`switch.transport.dial` in order, and how many times
`/p2p-circuit/ipfs/<theirB58Id>` was appended to the peer's addresses. -/
structure DialingResult where
  outcome : DialOutcome
  attempts : List String
  circuitAddrAppends : Nat
deriving DecidableEq, Repr

/-- The transport tag of the circuit relay (`Circuit.tag`); it is also the key
`availableTransports` sorts last (src/src/index.js lines 124–127). -/
def circuitTag : String := "Circuit"

/-- The recursive `nextTransport` closure of `_onDialing`
(src/src/connection/index.js lines 218–249).  `oracle n` tells whether the
`n`-th call to `switch.transport.dial` succeeds.  `keys` is the remaining
`tKeys` list (the head is what `tKeys.shift()` yields), `circuitTried` the
flag of line 216, `n` the index of the next dial attempt, `attempts` and
`appends` the bookkeeping accumulated so far.

When the circuit fallback dial fails, the source re-enters `nextTransport`
with the (now empty) key list and `circuitTried = true`, which immediately
reaches the `No available transports` branch; that single re-entry is
unfolded here so the recursion is structural on `keys`. -/
def nextTransport (oracle : Nat → Bool) (circuitEnabled : Bool) :
    List String → Bool → Nat → List String → Nat → DialingResult
  | [], circuitTried, n, attempts, appends =>
    if ¬circuitEnabled then
      ⟨.circuitDisabledErr, attempts, appends⟩
    else if circuitTried then
      ⟨.noAvailableErr, attempts, appends⟩
    else if oracle n then
      ⟨.success circuitTag, attempts ++ [circuitTag], appends + 1⟩
    else
      ⟨.noAvailableErr, attempts ++ [circuitTag], appends + 1⟩
  | k :: ks, circuitTried, n, attempts, appends =>
    if oracle n then ⟨.success k, attempts ++ [k], appends⟩
    else nextTransport oracle circuitEnabled ks circuitTried (n + 1)
      (attempts ++ [k]) appends

/-- The DIALING entry action `_onDialing` (src/src/connection/index.js lines
203–252): bail out with NO_TRANSPORTS_REGISTERED when
`switch.hasTransports()` is false, otherwise run `nextTransport` over
`availableTransports(theirPeerInfo)` with `circuitTried = false`. -/
def onDialing (oracle : Nat → Bool) (hasTransports circuitEnabled : Bool)
    (tKeys : List String) : DialingResult :=
  if ¬hasTransports then ⟨.noTransportsErr, [], 0⟩
  else nextTransport oracle circuitEnabled tKeys false 0 [] 0

/-- Result of the UPGRADING entry action `_onUpgrading`
(src/src/connection/index.js lines 352–406) together with `_didUpgrade`
(lines 415–425). -/
structure UpgradeResult where
  /-- The state the FSM ends in: `MUXED` via `done`, `CONNECTED` via `stop`. -/
  state : ConnState
  /-- Whether the FSM was stored in `switch.muxedConns[theirB58Id]`. -/
  muxedStored : Bool
  /-- Whether the FSM was stored in `switch.conns[theirB58Id]`
  (by `_didUpgrade` on error). -/
  connsStored : Bool
  /-- Whether an `error` event was emitted to the caller. -/
  errorEmitted : Bool
  /-- The muxer keys passed to `msDialer.select`, in order. -/
  selects : List String
deriving DecidableEq, Repr

/-- The recursive `nextMuxer` closure of `_onUpgrading`
(src/src/connection/index.js lines 370–402).  `select n` tells whether the
`n`-th `msDialer.select` call succeeds.  `key` is the key passed in, `rest`
the remaining `muxers` list.  On success the muxer is instantiated, the FSM
is stored in `muxedConns`, and `_didUpgrade(null)` triggers `done`; on
failure with muxers left, the next key is tried; on failure with none left,
`_didUpgrade(err)` stores the FSM in `conns` and triggers `stop`.  No branch
emits an `error` event. -/
def nextMuxer (select : Nat → Bool) :
    String → List String → Nat → List String → UpgradeResult
  | key, rest, n, tried =>
    if select n then
      ⟨ConnState.MUXED, true, false, false, tried ++ [key]⟩
    else
      match rest with
      | [] => ⟨ConnState.CONNECTED, false, true, false, tried ++ [key]⟩
      | k :: ks => nextMuxer select k ks (n + 1) (tried ++ [key])

/-- The UPGRADING entry action `_onUpgrading` (src/src/connection/index.js
lines 352–406): with no registered muxers trigger `stop` immediately (no
`conns` store); if the initial `msDialer.handle` fails, `_didUpgrade(err)`
stores in `conns` and triggers `stop`; otherwise iterate `nextMuxer` over the
registered muxer keys in insertion order. -/
def onUpgrading (select : Nat → Bool) (handleOk : Bool)
    (muxers : List String) : UpgradeResult :=
  match muxers with
  | [] => ⟨ConnState.CONNECTED, false, false, false, []⟩
  | k :: ks =>
    if ¬handleOk then ⟨ConnState.CONNECTED, false, true, false, []⟩
    else nextMuxer select k ks 0 []

/-- Observable events in the execution of `Switch.hangUp`
(src/src/index.js lines 167–180). -/
inductive HangUpEvent
  /-- `muxer.end()` was invoked. -/
  | muxerEnd
  /-- The muxer's `close` event fired. -/
  | muxerClose
  /-- `delete this.muxedConns[key]` executed. -/
  | deleteEntry
  /-- The caller's callback was invoked. -/
  | callback
deriving DecidableEq, Repr

/-- Result of `Switch.hangUp` for one peer key: the `muxedConns` table
restricted to that key after completion, and the ordered event trace. -/
structure HangUpResult where
  muxedAfter : Option Unit
  trace : List HangUpEvent
deriving DecidableEq, Repr

/-- `Switch.hangUp` (src/src/index.js lines 167–180), projected onto the
entry `muxedConns[key]` of the peer being hung up.  If an entry exists:
install a once-listener on the muxer's `close` event that deletes the entry
and then invokes the callback, and call `muxer.end()`; by the muxer contract
(§6) `close` fires after `end`.  If no entry exists, invoke the callback
immediately. -/
def hangUp (muxedConn : Option Unit) : HangUpResult :=
  match muxedConn with
  | some _ =>
    ⟨none, [.muxerEnd, .muxerClose, .deleteEntry, .callback]⟩
  | none =>
    ⟨none, [.callback]⟩

/-- The individual actions performed by a DISCONNECTING entry handler. -/
inductive DiscAction
  /-- `theirPeerInfo.disconnect()` -/
  | disconnectTheir
  /-- `ourPeerInfo.disconnect()` -/
  | disconnectOur
  /-- schedule `peer-mux-closed` on the next asynchronous tick -/
  | emitMuxClosed
  /-- `delete this.switch.muxedConns[this.theirB58Id]` -/
  | deleteMuxed
  /-- `delete this.switch.conns[this.theirB58Id]` -/
  | deleteConns
  /-- `delete this.muxer` -/
  | releaseMuxer
  /-- `delete this.conn` -/
  | releaseConn
  /-- trigger the `done` transition -/
  | triggerDone
deriving DecidableEq, Repr

/-- The outbound FSM's DISCONNECTING entry action `_onDisconnecting`
(src/src/connection/index.js lines 281–304), as the ordered list of actions
it performs, parameterised by whether `theirPeerInfo`, `ourPeerInfo` and
`muxer` are set. -/
def outOnDisconnecting (theirSet ourSet muxerSet : Bool) : List DiscAction :=
  (if theirSet then [DiscAction.disconnectTheir] else []) ++
  (if ourSet then [DiscAction.disconnectOur] else []) ++
  (if muxerSet then [DiscAction.emitMuxClosed] else []) ++
  [DiscAction.deleteMuxed, DiscAction.deleteConns,
   DiscAction.releaseMuxer, DiscAction.releaseConn, DiscAction.triggerDone]

/-- The inbound FSM's DISCONNECTING handler
(src/src/connection/handler.js lines 67–71), as the ordered list of actions
it performs: only `theirPeerInfo.disconnect()`, and only when
`theirPeerInfo` is set. -/
def incOnDisconnecting (theirSet : Bool) : List DiscAction :=
  if theirSet then [DiscAction.disconnectTheir] else []

/-- Result of `ConnectionFSM.shake` (src/src/connection/index.js lines
166–185) together with `_protocolHandshake` (lines 438–456). -/
structure ShakeResult where
  /-- The error argument of the callback (`none` = JS `null`). -/
  callbackErr : Option String
  /-- Whether the callback received a connection (second argument non-null). -/
  callbackConn : Bool
  /-- How many times `muxer.newStream` was invoked. -/
  newStreams : Nat
  /-- How many protocol negotiations (`msDialer.handle`/`select`) ran. -/
  negotiations : Nat
  /-- How many times `conn.setPeerInfo` was invoked. -/
  setPeerInfoCalls : Nat
  /-- The FSM state after the call (`shake` never triggers a transition). -/
  stateAfter : ConnState
deriving DecidableEq, Repr

/-- `ConnectionFSM.shake` (src/src/connection/index.js lines 166–185).
`protocol = none` models a JS `null`/absent protocol; JS also treats the
empty string as falsy, hence the extra guard.  `hasMuxer` tells whether
`this.muxer` with a `newStream` method exists; `streamErr` whether
`muxer.newStream` fails; `negotErr` whether the `_protocolHandshake`
negotiation fails; `s` is the FSM state when `shake` is entered. -/
def shake (protocol : Option String) (hasMuxer streamErr negotErr : Bool)
    (s : ConnState) : ShakeResult :=
  match protocol with
  | none => ⟨none, false, 0, 0, 0, s⟩
  | some p =>
    if p = "" then ⟨none, false, 0, 0, 0, s⟩
    else if hasMuxer then
      if streamErr then ⟨some "stream error", false, 1, 0, 0, s⟩
      else if negotErr then ⟨some "negotiation error", false, 1, 1, 0, s⟩
      else ⟨none, true, 1, 1, 0, s⟩
    else
      if negotErr then ⟨some "negotiation error", false, 0, 1, 1, s⟩
      else ⟨none, true, 0, 1, 1, s⟩

/-!
System model for the `muxedConns` invariant (C1).

The runtime is a single-threaded cooperative event loop (§5): each entry
action, together with the synchronous `fsm-event` transitions it triggers,
runs to completion between asynchronous suspension points.  A `Sys` state is
an observable instant: the states of the outbound FSM instances created for
one remote peer, and the `muxedConns`/`conns` entries for that peer (each
holds at most one FSM, identified by its index in `fsms`).  `SysStep`
enumerates the atomic handler runs of src/src/connection/index.js; in
particular a `disconnect` trigger runs `_onDisconnecting` (which deletes
both table entries, lines 298–299) and its synchronous `done` transition to
DISCONNECTED in one step, and a successful `msDialer.select` callback in
`_onUpgrading` stores the FSM in `muxedConns` (line 385) and reaches MUXED
via `_didUpgrade(null)` (line 424) in one step.
-/

/-- Observable system state for one remote peer: the outbound FSM instances
created for it and the two Switch table entries keyed by its base58 id. -/
structure Sys where
  fsms : List ConnState
  muxed : Option Nat
  conns : Option Nat
deriving DecidableEq, Repr

/-- The initial system: no FSM instances, both table entries absent. -/
def Sys.init : Sys := ⟨[], none, none⟩

/-- Replace the state of FSM `i`. -/
def Sys.setFsm (s : Sys) (i : Nat) (st : ConnState) : Sys :=
  { s with fsms := s.fsms.set i st }

/-- The atomic result of FSM `i` entering DISCONNECTING: `_onDisconnecting`
(src/src/connection/index.js lines 281–304) deletes `muxedConns` and `conns`
under the peer's key (whichever FSM they hold) and synchronously triggers
`done`, leaving FSM `i` in DISCONNECTED. -/
def Sys.disconnected (s : Sys) (i : Nat) : Sys :=
  ⟨s.fsms.set i ConnState.DISCONNECTED, none, none⟩

/-- Atomic handler runs of the outbound `ConnectionFSM`
(src/src/connection/index.js), at the granularity of the event loop. -/
inductive SysStep : Sys → Sys → Prop
  /-- The dialer creates a new `ConnectionFSM` for the peer (initial state
  DISCONNECTED, line 59). -/
  | newConn (s : Sys) :
      SysStep s ⟨s.fsms ++ [ConnState.DISCONNECTED], s.muxed, s.conns⟩
  /-- `dial()` with a distinct peer triggers `dial` (line 156). -/
  | dialStart (s : Sys) (i : Nat)
      (h : s.fsms[i]? = some ConnState.DISCONNECTED) :
      SysStep s (s.setFsm i ConnState.DIALING)
  /-- A transport dial succeeds: `_onDialing` triggers `done` (line 247). -/
  | dialDone (s : Sys) (i : Nat)
      (h : s.fsms[i]? = some ConnState.DIALING) :
      SysStep s (s.setFsm i ConnState.DIALED)
  /-- All transports fail: `_onDialing` emits an error and triggers
  `disconnect` (lines 225, 231), running `_onDisconnecting` to completion. -/
  | dialFail (s : Sys) (i : Nat)
      (h : s.fsms[i]? = some ConnState.DIALING) :
      SysStep s (s.disconnected i)
  /-- The dialer aborts an in-flight dial (`abort` edge of DIALING). -/
  | dialAbort (s : Sys) (i : Nat)
      (h : s.fsms[i]? = some ConnState.DIALING) :
      SysStep s (s.setFsm i ConnState.ABORTED)
  /-- The driver triggers `privatize` on the dialed connection. -/
  | privatizeStart (s : Sys) (i : Nat)
      (h : s.fsms[i]? = some ConnState.DIALED) :
      SysStep s (s.setFsm i ConnState.PRIVATIZING)
  /-- The protector succeeds: `done` edge of PRIVATIZING. -/
  | privatizeDone (s : Sys) (i : Nat)
      (h : s.fsms[i]? = some ConnState.PRIVATIZING) :
      SysStep s (s.setFsm i ConnState.PRIVATIZED)
  /-- The protector fails: `disconnect` edge of PRIVATIZING, running
  `_onDisconnecting` to completion. -/
  | privatizeFail (s : Sys) (i : Nat)
      (h : s.fsms[i]? = some ConnState.PRIVATIZING) :
      SysStep s (s.disconnected i)
  /-- The dialer aborts during privatization (`abort` edge). -/
  | privatizeAbort (s : Sys) (i : Nat)
      (h : s.fsms[i]? = some ConnState.PRIVATIZING) :
      SysStep s (s.setFsm i ConnState.ABORTED)
  /-- The driver triggers `encrypt` from DIALED. -/
  | encryptStart (s : Sys) (i : Nat)
      (h : s.fsms[i]? = some ConnState.DIALED) :
      SysStep s (s.setFsm i ConnState.ENCRYPTING)
  /-- The driver triggers `encrypt` from PRIVATIZED. -/
  | encryptStartPrivatized (s : Sys) (i : Nat)
      (h : s.fsms[i]? = some ConnState.PRIVATIZED) :
      SysStep s (s.setFsm i ConnState.ENCRYPTING)
  /-- The crypto handshake succeeds: `_onEncrypting` triggers `done`
  (line 338). -/
  | encryptDone (s : Sys) (i : Nat)
      (h : s.fsms[i]? = some ConnState.ENCRYPTING) :
      SysStep s (s.setFsm i ConnState.ENCRYPTED)
  /-- The crypto handshake fails: `_onEncrypting` emits the error and triggers
  `disconnect` (lines 318, 326, 334), running `_onDisconnecting`. -/
  | encryptFail (s : Sys) (i : Nat)
      (h : s.fsms[i]? = some ConnState.ENCRYPTING) :
      SysStep s (s.disconnected i)
  /-- The driver triggers `upgrade` with no registered muxers: `_onUpgrading`
  synchronously triggers `stop` (line 357), reaching CONNECTED with no table
  store. -/
  | upgradeNoMuxers (s : Sys) (i : Nat)
      (h : s.fsms[i]? = some ConnState.ENCRYPTED) :
      SysStep s (s.setFsm i ConnState.CONNECTED)
  /-- The driver triggers `upgrade` with muxers registered: the FSM suspends
  in UPGRADING awaiting the `msDialer.handle` callback. -/
  | upgradeStart (s : Sys) (i : Nat)
      (h : s.fsms[i]? = some ConnState.ENCRYPTED) :
      SysStep s (s.setFsm i ConnState.UPGRADING)
  /-- A `msDialer.select` succeeds: the FSM is stored in
  `muxedConns[theirB58Id]` (line 385) and `_didUpgrade(null)` triggers `done`
  (line 424), reaching MUXED — one synchronous run. -/
  | upgradeSuccess (s : Sys) (i : Nat)
      (h : s.fsms[i]? = some ConnState.UPGRADING) :
      SysStep s ⟨s.fsms.set i ConnState.MUXED, some i, s.conns⟩
  /-- The `msDialer.handle` or every `msDialer.select` fails:
  `_didUpgrade(err)` stores the FSM in `conns[theirB58Id]` (line 418) and
  triggers `stop`, reaching CONNECTED. -/
  | upgradeFail (s : Sys) (i : Nat)
      (h : s.fsms[i]? = some ConnState.UPGRADING) :
      SysStep s ⟨s.fsms.set i ConnState.CONNECTED, s.muxed, some i⟩
  /-- The muxer's `close` event fires (line 387), or `hangUp` ends the muxer:
  the FSM triggers `disconnect` from MUXED, running `_onDisconnecting`. -/
  | muxedDisconnect (s : Sys) (i : Nat)
      (h : s.fsms[i]? = some ConnState.MUXED) :
      SysStep s (s.disconnected i)
  /-- `disconnect` from CONNECTED, running `_onDisconnecting`. -/
  | connectedDisconnect (s : Sys) (i : Nat)
      (h : s.fsms[i]? = some ConnState.CONNECTED) :
      SysStep s (s.disconnected i)
  /-- `disconnect` from ENCRYPTED, running `_onDisconnecting`. -/
  | encryptedDisconnect (s : Sys) (i : Nat)
      (h : s.fsms[i]? = some ConnState.ENCRYPTED) :
      SysStep s (s.disconnected i)
  /-- The `error` edge fires from a state that has one (DIALING, ENCRYPTING,
  UPGRADING), leaving the FSM in ERRORED with the tables untouched. -/
  | erroredFromDialing (s : Sys) (i : Nat)
      (h : s.fsms[i]? = some ConnState.DIALING) :
      SysStep s (s.setFsm i ConnState.ERRORED)
  | erroredFromEncrypting (s : Sys) (i : Nat)
      (h : s.fsms[i]? = some ConnState.ENCRYPTING) :
      SysStep s (s.setFsm i ConnState.ERRORED)
  | erroredFromUpgrading (s : Sys) (i : Nat)
      (h : s.fsms[i]? = some ConnState.UPGRADING) :
      SysStep s (s.setFsm i ConnState.ERRORED)
  /-- `disconnect` from ERRORED, running `_onDisconnecting`. -/
  | erroredDisconnect (s : Sys) (i : Nat)
      (h : s.fsms[i]? = some ConnState.ERRORED) :
      SysStep s (s.disconnected i)

/-- Reachability from the initial system state. -/
def SysReachable (s : Sys) : Prop :=
  Relation.ReflTransGen SysStep Sys.init s

/-!
Dial scheduler model (C7), from the `DialQueueManager` in
src/src/connection/handler.js (lines 166–235).  The `Queue` class it drives
(`./queue`) is not among the provided sources; its interface behaviour is
modelled from the spec.
-/

/-- `MAX_PARALLEL_DIALS` (src/src/connection/handler.js line 166). -/
def MAX_PARALLEL_DIALS : Nat := 10

/-- State of the `DialQueueManager`: the FIFO `_queue` of pending dial
requests (represented by the target peer, as a `Nat` id), the set of peers
whose `PerPeerQueue` is currently running (`isRunning`), and the `dials`
counter. -/
structure DQM where
  queue : List Nat
  running : Finset Nat
  dials : Nat
deriving DecidableEq

/-- The initial `DialQueueManager` (constructor, lines 173–178). -/
def DQM.init : DQM := ⟨[], ∅, 0⟩

/-- `DialQueueManager.run` (src/src/connection/handler.js lines 208–217):
when `dials < MAX_PARALLEL_DIALS` and `_queue` is non-empty, shift one
request and route it to its peer's queue, incrementing `dials` only when
that queue is idle.

Modelled from the spec: `PerPeerQueue.add` on an idle queue starts it
(§4.6: "increments `dials` only when starting an idle queue"), so routing a
request to an idle queue puts its peer into `running`. -/
def DQM.run (s : DQM) : DQM :=
  if s.dials < MAX_PARALLEL_DIALS then
    match s.queue with
    | [] => s
    | p :: rest =>
      if p ∈ s.running then { s with queue := rest }
      else ⟨rest, insert p s.running, s.dials + 1⟩
  else s

/-- `DialQueueManager.add` (lines 198–203): push the request and `run`. -/
def DQM.addReq (s : DQM) (p : Nat) : DQM :=
  DQM.run { s with queue := s.queue ++ [p] }

/-- `DialQueueManager.onQueueStopped` (lines 219–222), fired by a
`PerPeerQueue` when it drains and goes idle (modelled from the spec:
"`queue.onStop` callback decrements `dials` and re-invokes `run()`"). -/
def DQM.onQueueStopped (s : DQM) (p : Nat) : DQM :=
  DQM.run { s with running := s.running.erase p, dials := s.dials - 1 }

/-- The external interactions that drive the `DialQueueManager`. -/
inductive DQMStep : DQM → DQM → Prop
  /-- A caller adds a dial request for peer `p`. -/
  | add (s : DQM) (p : Nat) : DQMStep s (s.addReq p)
  /-- The running `PerPeerQueue` of peer `p` drains and invokes `onStop`. -/
  | stopped (s : DQM) (p : Nat) (h : p ∈ s.running) :
      DQMStep s (s.onQueueStopped p)

/-- Reachability of `DialQueueManager` states. -/
def DQMReachable (s : DQM) : Prop :=
  Relation.ReflTransGen DQMStep DQM.init s

end Swarm

namespace Swarm

open ConnState ConnEvent

/-- C5 helper: every step of the machine either stutters or follows an edge. -/
theorem fsmStep_stutter_or_edge (table : ConnState → ConnEvent → Option ConnState)
    (s : ConnState) (e : ConnEvent) :
    fsmStep table s e = s ∨ tableEdge table s (fsmStep table s e) := by
  unfold fsmStep tableEdge
  cases h : table s e with
  | none => exact Or.inl rfl
  | some s' => exact Or.inr ⟨e, by simp [h]⟩

/-- The trace always starts at the initial state. -/
theorem fsmTrace_head (table : ConnState → ConnEvent → Option ConnState)
    (s : ConnState) (es : List ConnEvent) :
    (fsmTrace table s es).head? = some s := by
  cases es <;> rfl

/-- C5 helper: traces are chains of stutters-or-edges. -/
theorem fsmTrace_chain (table : ConnState → ConnEvent → Option ConnState)
    (s : ConnState) (es : List ConnEvent) :
    List.Chain' (fun a b => a = b ∨ tableEdge table a b) (fsmTrace table s es) := by
  induction es generalizing s with
  | nil => simp [fsmTrace]
  | cons e es ih =>
    simp only [fsmTrace]
    refine List.Chain'.cons' (ih (fsmStep table s e)) ?_
    intro y hy
    rw [fsmTrace_head] at hy
    cases hy
    rcases fsmStep_stutter_or_edge table s e with h | h
    · exact Or.inl h.symm
    · exact Or.inr h

/-- C5: every state sequence of the outbound `ConnectionFSM` (from its
initial state DISCONNECTED) and of the inbound `IncomingConnectionFSM` (from
its initial state DIALED) is a valid path in its transition graph, where
consecutive states are either equal (a rejected event) or joined by a table
edge; and triggering an event that the table does not list for the current
state leaves the machine in that state. -/
theorem conn_fsm_valid_paths :
    (∀ es : List ConnEvent,
      List.Chain' (fun a b => a = b ∨ tableEdge outTable a b)
        (fsmTrace outTable ConnState.DISCONNECTED es)) ∧
    (∀ es : List ConnEvent,
      List.Chain' (fun a b => a = b ∨ tableEdge inTable a b)
        (fsmTrace inTable ConnState.DIALED es)) ∧
    (∀ (s : ConnState) (e : ConnEvent),
      outTable s e = none → fsmStep outTable s e = s) ∧
    (∀ (s : ConnState) (e : ConnEvent),
      inTable s e = none → fsmStep inTable s e = s) :=
  ⟨fun es => fsmTrace_chain outTable ConnState.DISCONNECTED es,
   fun es => fsmTrace_chain inTable ConnState.DIALED es,
   fun s e h => by simp [fsmStep, h],
   fun s e h => by simp [fsmStep, h]⟩

/-- C5 witness: a concrete outbound trace is a valid path, and the invalid
events `dial`-in-MUXED (outbound) and `dial`-in-DIALED (inbound) stutter. -/
theorem conn_fsm_valid_paths_witness :
    List.Chain' (fun a b => a = b ∨ tableEdge outTable a b)
      (fsmTrace outTable ConnState.DISCONNECTED
        [ConnEvent.dial, ConnEvent.done, ConnEvent.encrypt]) ∧
    (outTable ConnState.MUXED ConnEvent.dial = none ∧
      fsmStep outTable ConnState.MUXED ConnEvent.dial = ConnState.MUXED) ∧
    (inTable ConnState.DIALED ConnEvent.dial = none ∧
      fsmStep inTable ConnState.DIALED ConnEvent.dial = ConnState.DIALED) :=
  ⟨conn_fsm_valid_paths.1 [ConnEvent.dial, ConnEvent.done, ConnEvent.encrypt],
   ⟨rfl, conn_fsm_valid_paths.2.2.1 ConnState.MUXED ConnEvent.dial rfl⟩,
   ⟨rfl, conn_fsm_valid_paths.2.2.2 ConnState.DIALED ConnEvent.dial rfl⟩⟩

/-- C4 counterexample: the claim says `stop` while STARTING is not defined by
the transition graph and produces a state-transition error, but the Switch
table (src/src/index.js line 85) lists `stop: 'STOPPING'` for STARTING: the
transition is defined and moves the machine to STOPPING without error. -/
theorem switch_stop_while_starting_defined :
    switchTable SwitchState.STARTING SwitchEvent.stop = some SwitchState.STOPPING ∧
    switchTable SwitchState.STARTING SwitchEvent.stop ≠ none ∧
    switchStep SwitchState.STARTING SwitchEvent.stop = SwitchState.STOPPING := by
  refine ⟨rfl, ?_, rfl⟩
  simp [switchTable]

/-- C4 (amended): `start` while STARTED is a defined self-transition (a
no-op on the state), `start` while STOPPING is not defined by the graph and
produces a state-transition error, and `stop` while STARTING is defined and
moves the machine to STOPPING. -/
theorem switch_lifecycle_edge_cases :
    switchTable SwitchState.STARTED SwitchEvent.start = some SwitchState.STARTED ∧
    switchStep SwitchState.STARTED SwitchEvent.start = SwitchState.STARTED ∧
    switchTable SwitchState.STOPPING SwitchEvent.start = none ∧
    switchStep SwitchState.STOPPING SwitchEvent.start = SwitchState.STOPPING ∧
    switchTable SwitchState.STARTING SwitchEvent.stop = some SwitchState.STOPPING := by
  exact ⟨rfl, rfl, rfl, rfl, rfl⟩

/-- C9: calling `ConnectionFSM.dial()` with a remote peer whose base58 id
equals the local Switch's emits DIAL_SELF and performs no state transition;
in particular a fresh FSM (state DISCONNECTED) remains in DISCONNECTED. -/
theorem dial_self_guard (b58 : String) (s : ConnState) :
    dialCall b58 b58 s = (s, true) ∧
    dialCall b58 b58 ConnState.DISCONNECTED = (ConnState.DISCONNECTED, true) := by
  constructor <;> simp [dialCall]

/-- C10: `shake` with a null/absent protocol invokes the callback with
`(null, null)` immediately: no substream is opened (`muxer.newStream` is
never invoked), no protocol negotiation runs, `setPeerInfo` is not called,
and the FSM state is unchanged. -/
theorem shake_null_protocol (hasMuxer streamErr negotErr : Bool) (s : ConnState) :
    shake none hasMuxer streamErr negotErr s =
      ⟨none, false, 0, 0, 0, s⟩ := rfl

/-- C8 counterexample: the claim says every connection FSM (outbound or
inbound) entering DISCONNECTING invokes `disconnect()` on both PeerInfos,
but the inbound FSM's DISCONNECTING handler
(src/src/connection/handler.js lines 67–71) never calls
`ourPeerInfo.disconnect()`, even when the remote PeerInfo is set. -/
theorem inbound_disconnecting_skips_our_peer :
    DiscAction.disconnectOur ∉ incOnDisconnecting true ∧
    incOnDisconnecting true = [DiscAction.disconnectTheir] := by
  exact ⟨by decide, rfl⟩

/-- C8 (amended): when an outbound `ConnectionFSM` enters DISCONNECTING,
`disconnect()` is invoked on each PeerInfo that is set (both, in the normal
case where both are set), the FSM is removed from both Switch tables `conns`
and `muxedConns`, and its muxer and conn are released before the `done`
transition fires; the inbound FSM invokes `disconnect()` only on the remote
PeerInfo (when set), never on the local one. -/
theorem disconnecting_effects :
    ∀ t o m : Bool,
      (DiscAction.disconnectTheir ∈ outOnDisconnecting t o m ↔ t = true) ∧
      (DiscAction.disconnectOur ∈ outOnDisconnecting t o m ↔ o = true) ∧
      DiscAction.deleteMuxed ∈ outOnDisconnecting t o m ∧
      DiscAction.deleteConns ∈ outOnDisconnecting t o m ∧
      DiscAction.releaseMuxer ∈ outOnDisconnecting t o m ∧
      DiscAction.releaseConn ∈ outOnDisconnecting t o m ∧
      (outOnDisconnecting t o m).indexOf DiscAction.deleteMuxed <
        (outOnDisconnecting t o m).indexOf DiscAction.triggerDone ∧
      (outOnDisconnecting t o m).indexOf DiscAction.deleteConns <
        (outOnDisconnecting t o m).indexOf DiscAction.triggerDone ∧
      (outOnDisconnecting t o m).indexOf DiscAction.releaseMuxer <
        (outOnDisconnecting t o m).indexOf DiscAction.triggerDone ∧
      (outOnDisconnecting t o m).indexOf DiscAction.releaseConn <
        (outOnDisconnecting t o m).indexOf DiscAction.triggerDone ∧
      DiscAction.disconnectOur ∉ incOnDisconnecting t ∧
      (DiscAction.disconnectTheir ∈ incOnDisconnecting t ↔ t = true) := by
  decide

/-- C6: after `hangUp(P)` invokes its callback, `muxedConns[P]` is absent;
if a muxed connection existed when `hangUp` was called, the muxer's `close`
event fired (and the entry was deleted) before the callback ran, and if none
existed the callback is the only event (invoked immediately, no muxer
interaction). -/
theorem hangUp_spec (m : Option Unit) :
    (hangUp m).muxedAfter = none ∧
    HangUpEvent.callback ∈ (hangUp m).trace ∧
    (m.isSome = true →
      (hangUp m).trace.indexOf HangUpEvent.muxerClose <
        (hangUp m).trace.indexOf HangUpEvent.callback ∧
      (hangUp m).trace.indexOf HangUpEvent.deleteEntry <
        (hangUp m).trace.indexOf HangUpEvent.callback) ∧
    (m = none → (hangUp m).trace = [HangUpEvent.callback]) := by
  cases m with
  | none => exact ⟨rfl, by decide, fun h => by simp at h, fun _ => rfl⟩
  | some u =>
    cases u
    exact ⟨rfl, by decide, fun _ => by decide, fun h => by simp at h⟩

/-- C2 helper: when every dial of the remaining `keys` fails, `nextTransport`
(with the circuit enabled and not yet tried) appends the circuit address
once, dials the circuit once after the list, and otherwise errors. -/
theorem nextTransport_exhaust (oracle : Nat → Bool) (keys : List String)
    (n : Nat) (attempts : List String) (appends : Nat)
    (hfail : ∀ m, m < keys.length → oracle (n + m) = false) :
    nextTransport oracle true keys false n attempts appends =
      if oracle (n + keys.length) then
        ⟨DialOutcome.success circuitTag, attempts ++ keys ++ [circuitTag], appends + 1⟩
      else
        ⟨DialOutcome.noAvailableErr, attempts ++ keys ++ [circuitTag], appends + 1⟩ := by
  induction keys generalizing n attempts with
  | nil =>
    cases ho : oracle n with
    | false => simp [nextTransport, ho]
    | true => simp [nextTransport, ho]
  | cons k ks ih =>
    have h0 : oracle n = false := by
      have := hfail 0 (by simp)
      simpa using this
    have hrest : ∀ m, m < ks.length → oracle (n + 1 + m) = false := by
      intro m hm
      have hlt : m + 1 < (k :: ks).length := by
        simp only [List.length_cons]; omega
      have := hfail (m + 1) hlt
      have hn : n + (m + 1) = n + 1 + m := by omega
      rw [hn] at this
      exact this
    simp only [nextTransport, h0, Bool.false_eq_true, if_false]
    rw [ih (n + 1) (attempts ++ [k]) hrest]
    have hn : n + 1 + ks.length = n + (ks.length + 1) := by omega
    simp [hn, List.append_assoc]

/-- C2: if every transport in `availableTransports` fails and the circuit
transport is registered but not yet tried via the fallback, `_onDialing`
appends `/p2p-circuit/ipfs/<remoteB58>` to the peer's addresses exactly once
and dials exactly once more, through the circuit transport; if that retry
also fails it emits the `No available transports` error and triggers
`disconnect`, and if it succeeds the dial completes over the circuit. -/
theorem circuit_fallback_retry (oracle : Nat → Bool) (tKeys : List String)
    (hfail : ∀ m, m < tKeys.length → oracle m = false) :
    (onDialing oracle true true tKeys).circuitAddrAppends = 1 ∧
    (onDialing oracle true true tKeys).attempts = tKeys ++ [circuitTag] ∧
    (oracle tKeys.length = false →
      (onDialing oracle true true tKeys).outcome = DialOutcome.noAvailableErr) ∧
    (oracle tKeys.length = true →
      (onDialing oracle true true tKeys).outcome = DialOutcome.success circuitTag) := by
  have hfail' : ∀ m, m < tKeys.length → oracle (0 + m) = false := by
    intro m hm; simpa using hfail m hm
  have hmain := nextTransport_exhaust oracle tKeys 0 [] 0 hfail'
  simp only [Nat.zero_add, List.nil_append] at hmain
  have hod : onDialing oracle true true tKeys =
      nextTransport oracle true tKeys false 0 [] 0 := by
    simp [onDialing]
  rw [hod, hmain]
  cases hc : oracle tKeys.length with
  | false =>
    rw [if_neg (by simp)]
    exact ⟨rfl, rfl, fun _ => rfl, fun h => by simp at h⟩
  | true =>
    rw [if_pos rfl]
    exact ⟨rfl, rfl, fun h => by simp at h, fun _ => rfl⟩

/-- C2 witness: two transports, every dial fails (including the circuit
retry): the circuit address is appended once, the attempt list is the two
transports followed by one circuit dial, and the outcome is the
error-and-disconnect one. -/
theorem circuit_fallback_retry_witness :
    (onDialing (fun _ => false) true true ["tcp", "ws"]).circuitAddrAppends = 1 ∧
    (onDialing (fun _ => false) true true ["tcp", "ws"]).attempts =
      ["tcp", "ws", circuitTag] ∧
    (onDialing (fun _ => false) true true ["tcp", "ws"]).outcome =
      DialOutcome.noAvailableErr := by
  have h := circuit_fallback_retry (fun _ => false) ["tcp", "ws"] (fun m _ => rfl)
  exact ⟨h.1, by rw [h.2.1]; rfl, h.2.2.1 rfl⟩

/-- C3 helper: when every remaining `msDialer.select` fails, `nextMuxer`
tries each key in order and ends with `_didUpgrade(err)`: `conns` store,
`stop` to CONNECTED, no error event. -/
theorem nextMuxer_exhaust (select : Nat → Bool) (key : String)
    (rest : List String) (n : Nat) (tried : List String)
    (hfail : ∀ m, m ≤ rest.length → select (n + m) = false) :
    nextMuxer select key rest n tried =
      ⟨ConnState.CONNECTED, false, true, false, tried ++ key :: rest⟩ := by
  induction rest generalizing key n tried with
  | nil =>
    have h0 : select n = false := by simpa using hfail 0 (by simp)
    simp [nextMuxer, h0]
  | cons k ks ih =>
    have h0 : select n = false := by simpa using hfail 0 (by simp)
    have hrest : ∀ m, m ≤ ks.length → select (n + 1 + m) = false := by
      intro m hm
      have hle : m + 1 ≤ (k :: ks).length := by
        simp only [List.length_cons]; omega
      have := hfail (m + 1) hle
      have hn : n + (m + 1) = n + 1 + m := by omega
      rw [hn] at this
      exact this
    simp only [nextMuxer, h0, Bool.false_eq_true, if_false]
    rw [ih k (n + 1) (tried ++ [key]) hrest]
    simp

/-- C3 helper: when the selects for the first `j` keys fail and the `j`-th
succeeds, `nextMuxer` stops at that key: the FSM is stored in `muxedConns`
and reaches MUXED, `conns` is untouched, no error event. -/
theorem nextMuxer_first_success (select : Nat → Bool) (key : String)
    (rest : List String) (n : Nat) (tried : List String) (j : Nat)
    (hj : j ≤ rest.length)
    (hbefore : ∀ m, m < j → select (n + m) = false)
    (hsucc : select (n + j) = true) :
    nextMuxer select key rest n tried =
      ⟨ConnState.MUXED, true, false, false,
        tried ++ (key :: rest).take (j + 1)⟩ := by
  induction j generalizing key rest n tried with
  | zero =>
    have h0 : select n = true := by simpa using hsucc
    cases rest with
    | nil => simp [nextMuxer, h0]
    | cons k ks => simp [nextMuxer, h0]
  | succ j ih =>
    have h0 : select n = false := by simpa using hbefore 0 (Nat.succ_pos j)
    cases rest with
    | nil => exact absurd hj (by simp)
    | cons k ks =>
      have hj' : j ≤ ks.length := by
        simp only [List.length_cons] at hj; omega
      have hbefore' : ∀ m, m < j → select (n + 1 + m) = false := by
        intro m hm
        have := hbefore (m + 1) (Nat.succ_lt_succ hm)
        have hn : n + (m + 1) = n + 1 + m := by omega
        rw [hn] at this
        exact this
      have hsucc' : select (n + 1 + j) = true := by
        have h : n + 1 + j = n + (j + 1) := by omega
        rw [h]; exact hsucc
      simp only [nextMuxer, h0, Bool.false_eq_true, if_false]
      rw [ih k ks (n + 1) (tried ++ [key]) hj' hbefore' hsucc']
      simp [List.take]

/-- C3: during `_onUpgrading` with at least one registered muxer and a
successful initial `msDialer.handle`, a failed muxer negotiation is absorbed
and the next registered key is tried in insertion order: if every registered
muxer fails, every key was tried in order, the FSM is stored in
`conns[remoteB58]` (not in `muxedConns`), the `stop` transition reaches
CONNECTED, and no `error` event is emitted to the caller; while if the
select for the `j`-th key succeeds after the earlier ones failed, the FSM is
stored in `muxedConns` and reaches MUXED with no `conns` store. -/
theorem muxer_exhaustion (select : Nat → Bool) (k : String) (ks : List String) :
    ((∀ m, m < (k :: ks).length → select m = false) →
      onUpgrading select true (k :: ks) =
        ⟨ConnState.CONNECTED, false, true, false, k :: ks⟩) ∧
    (∀ j, j ≤ ks.length → (∀ m, m < j → select m = false) → select j = true →
      onUpgrading select true (k :: ks) =
        ⟨ConnState.MUXED, true, false, false, (k :: ks).take (j + 1)⟩) := by
  constructor
  · intro hfail
    have hfail' : ∀ m, m ≤ ks.length → select (0 + m) = false := by
      intro m hm
      have hlt : m < (k :: ks).length := by
        simp only [List.length_cons]; omega
      simpa using hfail m hlt
    have := nextMuxer_exhaust select k ks 0 [] hfail'
    simpa [onUpgrading] using this
  · intro j hj hbefore hsucc
    have hbefore' : ∀ m, m < j → select (0 + m) = false := by
      intro m hm; simpa using hbefore m hm
    have hsucc' : select (0 + j) = true := by simpa using hsucc
    have := nextMuxer_first_success select k ks 0 [] j hj hbefore' hsucc'
    simpa [onUpgrading] using this

/-- C3 witness: with muxers `["mplex", "spdy"]` and every select failing, the
FSM lands in `conns`, reaches CONNECTED, emits no error and tried both keys
in order; with the second select succeeding, it lands in `muxedConns` and
reaches MUXED. -/
theorem muxer_exhaustion_witness :
    onUpgrading (fun _ => false) true ["mplex", "spdy"] =
      ⟨ConnState.CONNECTED, false, true, false, ["mplex", "spdy"]⟩ ∧
    onUpgrading (fun n => decide (n = 1)) true ["mplex", "spdy"] =
      ⟨ConnState.MUXED, true, false, false, ["mplex", "spdy"]⟩ := by
  constructor
  · exact (muxer_exhaustion (fun _ => false) "mplex" ["spdy"]).1
      (fun m _ => rfl)
  · have h := (muxer_exhaustion (fun n => decide (n = 1)) "mplex" ["spdy"]).2
      1 (by decide) (fun m hm => by
        have hm0 : m = 0 := by omega
        subst hm0; rfl) rfl
    simpa using h

/-- C1 helper: overwriting the slot of an FSM that is provably not MUXED
cannot disturb a slot known to hold MUXED. -/
theorem set_keeps_muxed_slot {l : List ConnState} {i j : Nat}
    {st c : ConnState} (hj : l[j]? = some ConnState.MUXED)
    (hi : l[i]? = some st) (hst : st ≠ ConnState.MUXED) :
    (l.set i c)[j]? = some ConnState.MUXED := by
  rcases eq_or_ne i j with rfl | hne
  · rw [hi] at hj
    exact absurd (Option.some.inj hj) hst
  · rw [List.getElem?_set_ne hne]
    exact hj

/-- C1 helper: every atomic handler run preserves the `muxedConns`
invariant. -/
theorem sysStep_muxed_inv {s t : Sys} (hstep : SysStep s t)
    (hinv : ∀ i, s.muxed = some i → s.fsms[i]? = some ConnState.MUXED) :
    ∀ i, t.muxed = some i → t.fsms[i]? = some ConnState.MUXED := by
  intro j hj
  cases hstep with
  | newConn =>
    have hm := hinv j hj
    have hlt : j < s.fsms.length := (List.getElem?_eq_some.mp hm).1
    show (s.fsms ++ [ConnState.DISCONNECTED])[j]? = some ConnState.MUXED
    rw [List.getElem?_append, if_pos hlt]
    exact hm
  | dialStart i h => exact set_keeps_muxed_slot (hinv j hj) h (by decide)
  | dialDone i h => exact set_keeps_muxed_slot (hinv j hj) h (by decide)
  | dialFail i h => exact absurd hj (by simp [Sys.disconnected])
  | dialAbort i h => exact set_keeps_muxed_slot (hinv j hj) h (by decide)
  | privatizeStart i h => exact set_keeps_muxed_slot (hinv j hj) h (by decide)
  | privatizeDone i h => exact set_keeps_muxed_slot (hinv j hj) h (by decide)
  | privatizeFail i h => exact absurd hj (by simp [Sys.disconnected])
  | privatizeAbort i h => exact set_keeps_muxed_slot (hinv j hj) h (by decide)
  | encryptStart i h => exact set_keeps_muxed_slot (hinv j hj) h (by decide)
  | encryptStartPrivatized i h =>
    exact set_keeps_muxed_slot (hinv j hj) h (by decide)
  | encryptDone i h => exact set_keeps_muxed_slot (hinv j hj) h (by decide)
  | encryptFail i h => exact absurd hj (by simp [Sys.disconnected])
  | upgradeNoMuxers i h => exact set_keeps_muxed_slot (hinv j hj) h (by decide)
  | upgradeStart i h => exact set_keeps_muxed_slot (hinv j hj) h (by decide)
  | upgradeSuccess i h =>
    have hij : i = j := Option.some.inj hj
    subst hij
    have hlt : i < s.fsms.length := (List.getElem?_eq_some.mp h).1
    show (s.fsms.set i ConnState.MUXED)[i]? = some ConnState.MUXED
    exact List.getElem?_set_eq_of_lt ConnState.MUXED hlt
  | upgradeFail i h => exact set_keeps_muxed_slot (hinv j hj) h (by decide)
  | muxedDisconnect i h => exact absurd hj (by simp [Sys.disconnected])
  | connectedDisconnect i h => exact absurd hj (by simp [Sys.disconnected])
  | encryptedDisconnect i h => exact absurd hj (by simp [Sys.disconnected])
  | erroredFromDialing i h => exact set_keeps_muxed_slot (hinv j hj) h (by decide)
  | erroredFromEncrypting i h =>
    exact set_keeps_muxed_slot (hinv j hj) h (by decide)
  | erroredFromUpgrading i h =>
    exact set_keeps_muxed_slot (hinv j hj) h (by decide)
  | erroredDisconnect i h => exact absurd hj (by simp [Sys.disconnected])

/-- C1: in every reachable system state, the `muxedConns` entry for the peer
is either absent or holds exactly one FSM, and that FSM's state machine is in
MUXED; no reachable state stores an FSM in any other state under
`muxedConns`. -/
theorem muxedConns_holds_only_MUXED (s : Sys) (h : SysReachable s) :
    ∀ i, s.muxed = some i → s.fsms[i]? = some ConnState.MUXED := by
  induction h with
  | refl => intro i hi; exact absurd hi (by simp [Sys.init])
  | tail _ hstep ih => exact sysStep_muxed_inv hstep ih

/-- C1 witness: the state with one FSM that dialed, encrypted and muxed is
reachable, and its stored FSM is in MUXED. -/
theorem muxedConns_holds_only_MUXED_witness :
    SysReachable ⟨[ConnState.MUXED], some 0, none⟩ ∧
    (⟨[ConnState.MUXED], some 0, none⟩ : Sys).fsms[0]? =
      some ConnState.MUXED := by
  have t1 : SysStep Sys.init ⟨[ConnState.DISCONNECTED], none, none⟩ :=
    SysStep.newConn Sys.init
  have t2 : SysStep ⟨[ConnState.DISCONNECTED], none, none⟩
      ⟨[ConnState.DIALING], none, none⟩ :=
    SysStep.dialStart ⟨[ConnState.DISCONNECTED], none, none⟩ 0 rfl
  have t3 : SysStep ⟨[ConnState.DIALING], none, none⟩
      ⟨[ConnState.DIALED], none, none⟩ :=
    SysStep.dialDone ⟨[ConnState.DIALING], none, none⟩ 0 rfl
  have t4 : SysStep ⟨[ConnState.DIALED], none, none⟩
      ⟨[ConnState.ENCRYPTING], none, none⟩ :=
    SysStep.encryptStart ⟨[ConnState.DIALED], none, none⟩ 0 rfl
  have t5 : SysStep ⟨[ConnState.ENCRYPTING], none, none⟩
      ⟨[ConnState.ENCRYPTED], none, none⟩ :=
    SysStep.encryptDone ⟨[ConnState.ENCRYPTING], none, none⟩ 0 rfl
  have t6 : SysStep ⟨[ConnState.ENCRYPTED], none, none⟩
      ⟨[ConnState.UPGRADING], none, none⟩ :=
    SysStep.upgradeStart ⟨[ConnState.ENCRYPTED], none, none⟩ 0 rfl
  have t7 : SysStep ⟨[ConnState.UPGRADING], none, none⟩
      ⟨[ConnState.MUXED], some 0, none⟩ :=
    SysStep.upgradeSuccess ⟨[ConnState.UPGRADING], none, none⟩ 0 rfl
  have hreach : SysReachable ⟨[ConnState.MUXED], some 0, none⟩ :=
    Relation.ReflTransGen.tail
      (Relation.ReflTransGen.tail
        (Relation.ReflTransGen.tail
          (Relation.ReflTransGen.tail
            (Relation.ReflTransGen.tail
              (Relation.ReflTransGen.tail
                (Relation.ReflTransGen.tail Relation.ReflTransGen.refl t1)
                t2) t3) t4) t5) t6) t7
  exact ⟨hreach, muxedConns_holds_only_MUXED _ hreach 0 rfl⟩

/-- C7 helper: `DialQueueManager.run` preserves the counter invariant. -/
theorem dqm_run_inv {s : DQM}
    (h : s.dials = s.running.card ∧ s.dials ≤ MAX_PARALLEL_DIALS) :
    s.run.dials = s.run.running.card ∧ s.run.dials ≤ MAX_PARALLEL_DIALS := by
  unfold DQM.run
  rcases h with ⟨hcard, hle⟩
  split
  · rename_i hlt
    split
    · exact ⟨hcard, hle⟩
    · split
      · exact ⟨hcard, hle⟩
      · rename_i p rest heq hp
        refine ⟨?_, hlt⟩
        show s.dials + 1 = (insert p s.running).card
        rw [Finset.card_insert_of_not_mem hp, hcard]
  · exact ⟨hcard, hle⟩

/-- C7 helper: every external interaction with the `DialQueueManager`
preserves the counter invariant. -/
theorem dqm_step_inv {s t : DQM} (hstep : DQMStep s t)
    (h : s.dials = s.running.card ∧ s.dials ≤ MAX_PARALLEL_DIALS) :
    t.dials = t.running.card ∧ t.dials ≤ MAX_PARALLEL_DIALS := by
  cases hstep with
  | add p => exact dqm_run_inv h
  | stopped p hp =>
    refine dqm_run_inv ⟨?_, ?_⟩
    · show s.dials - 1 = (s.running.erase p).card
      rw [Finset.card_erase_of_mem hp, h.1]
    · exact Nat.le_trans (Nat.sub_le _ _) h.2

/-- C7: in every reachable `DialQueueManager` state, at most
`MAX_PARALLEL_DIALS = 10` per-peer queues are running concurrently, and the
`dials` counter (which `run` increments only when routing to an idle queue
and `onQueueStopped` decrements) never exceeds the cap. -/
theorem max_parallel_dial_queues (s : DQM) (h : DQMReachable s) :
    s.running.card ≤ MAX_PARALLEL_DIALS ∧ s.dials ≤ MAX_PARALLEL_DIALS := by
  have hinv : s.dials = s.running.card ∧ s.dials ≤ MAX_PARALLEL_DIALS := by
    induction h with
    | refl => exact ⟨rfl, by decide⟩
    | tail _ hstep ih => exact dqm_step_inv hstep ih
  exact ⟨hinv.1 ▸ hinv.2, hinv.2⟩

/-- C7 witness: the manager state after accepting one dial request is
reachable and satisfies the cap. -/
theorem max_parallel_dial_queues_witness :
    DQMReachable (DQM.init.addReq 7) ∧
    (DQM.init.addReq 7).running.card ≤ MAX_PARALLEL_DIALS ∧
    (DQM.init.addReq 7).dials ≤ MAX_PARALLEL_DIALS := by
  have hreach : DQMReachable (DQM.init.addReq 7) :=
    Relation.ReflTransGen.tail Relation.ReflTransGen.refl
      (DQMStep.add DQM.init 7)
  exact ⟨hreach, max_parallel_dial_queues _ hreach⟩

/-- C6 witness: evaluating `hangUp` at an existing muxed connection and at an
absent one. -/
theorem hangUp_spec_witness :
    ((hangUp (some ())).muxedAfter = none ∧
      (hangUp (some ())).trace.indexOf HangUpEvent.muxerClose <
        (hangUp (some ())).trace.indexOf HangUpEvent.callback) ∧
    (hangUp none).trace = [HangUpEvent.callback] :=
  ⟨⟨(hangUp_spec (some ())).1, ((hangUp_spec (some ())).2.2.1 rfl).1⟩,
   (hangUp_spec none).2.2.2 rfl⟩

end Swarm
